import Mathlib

set_option maxRecDepth 100000

/-!
Shallow embedding of the OpenVidu Meet webhook-receiver snippet
(`webhooks-snippets/rust/src/main.rs`).

Strings are modelled as lists of byte values (`List Nat`, each entry `< 256`,
matching the UTF-8 bytes of the Rust `&str`/`String` values).  Machine
integers are modelled as `Int`/`Nat` with explicit two's-complement wrapping
where the Rust code can overflow (release-profile semantics: `i64`
subtraction wraps).  The wall clock read (`Utc::now().timestamp_millis()`)
is passed in as an explicit `now : Int` parameter.
-/

/-- Bytes of an ASCII string literal (used only for ASCII constants, where
the Unicode code point equals the single UTF-8 byte). -/
def strBytes (s : String) : List Nat :=
  s.data.map Char.toNat

/-! ## SHA-256 (FIPS 180-4), executable over `Nat` words mod 2^32 -/

def M32 : Nat := 4294967296

def rotr (n x : Nat) : Nat :=
  ((x >>> n) ||| (x <<< (32 - n))) % M32

def bigS0 (x : Nat) : Nat := rotr 2 x ^^^ rotr 13 x ^^^ rotr 22 x

def bigS1 (x : Nat) : Nat := rotr 6 x ^^^ rotr 11 x ^^^ rotr 25 x

def smallS0 (x : Nat) : Nat := rotr 7 x ^^^ rotr 18 x ^^^ (x >>> 3)

def smallS1 (x : Nat) : Nat := rotr 17 x ^^^ rotr 19 x ^^^ (x >>> 10)

def chF (x y z : Nat) : Nat := (x &&& y) ^^^ ((x ^^^ 4294967295) &&& z)

def majF (x y z : Nat) : Nat := (x &&& y) ^^^ (x &&& z) ^^^ (y &&& z)

def sha256K : List Nat :=
  [1116352408, 1899447441, 3049323471, 3921009573, 961987163,
   1508970993, 2453635748, 2870763221, 3624381080, 310598401,
   607225278, 1426881987, 1925078388, 2162078206, 2614888103,
   3248222580, 3835390401, 4022224774, 264347078, 604807628,
   770255983, 1249150122, 1555081692, 1996064986, 2554220882,
   2821834349, 2952996808, 3210313671, 3336571891, 3584528711,
   113926993, 338241895, 666307205, 773529912, 1294757372,
   1396182291, 1695183700, 1986661051, 2177026350, 2456956037,
   2730485921, 2820302411, 3259730800, 3345764771, 3516065817,
   3600352804, 4094571909, 275423344, 430227734, 506948616,
   659060556, 883997877, 958139571, 1322822218, 1537002063,
   1747873779, 1955562222, 2024104815, 2227730452, 2361852424,
   2428436474, 2756734187, 3204031479, 3329325298]

def sha256H0 : List Nat :=
  [1779033703, 3144134277, 1013904242, 2773480762, 1359893119,
   2600822924, 528734635, 1541459225]

/-- One step of the message-schedule extension.  `w` holds the words produced
so far in reverse order (most recent first). -/
def wstep (w : List Nat) : Nat :=
  (smallS1 (w.getD 1 0) + w.getD 6 0 + smallS0 (w.getD 14 0) + w.getD 15 0) % M32

def extendW : Nat → List Nat → List Nat
  | 0, w => w
  | n + 1, w => extendW n (wstep w :: w)

/-- One SHA-256 compression round on the 8-word working state. -/
def sha256Round (s : List Nat) (kw : Nat × Nat) : List Nat :=
  match s with
  | [a, b, c, d, e, f, g, h] =>
    let t1 := (h + bigS1 e + chF e f g + kw.1 + kw.2) % M32
    let t2 := (bigS0 a + majF a b c) % M32
    [(t1 + t2) % M32, a, b, c, (d + t1) % M32, e, f, g]
  | s => s

/-- Compress one 16-word block into the hash state. -/
def compressBlock (h : List Nat) (block : List Nat) : List Nat :=
  let w := (extendW 48 block.reverse).reverse
  let s := ((sha256K.zip w).foldl sha256Round h)
  List.zipWith (fun x y => (x + y) % M32) h s

def be64 (n : Nat) : List Nat :=
  [(n >>> 56) % 256, (n >>> 48) % 256, (n >>> 40) % 256, (n >>> 32) % 256,
   (n >>> 24) % 256, (n >>> 16) % 256, (n >>> 8) % 256, n % 256]

/-- SHA-256 padding: `0x80`, zeros, then the 64-bit big-endian bit length. -/
def padMsg (ms : List Nat) : List Nat :=
  let L := ms.length
  let zs := (119 - L % 64) % 64
  ms ++ 0x80 :: List.replicate zs 0 ++ be64 (8 * L)

def bytesToWords : List Nat → List Nat
  | a :: b :: c :: d :: rest =>
    (a * 16777216 + b * 65536 + c * 256 + d) :: bytesToWords rest
  | _ => []

def chunk16 : List Nat → List (List Nat)
  | w0 :: w1 :: w2 :: w3 :: w4 :: w5 :: w6 :: w7 ::
      w8 :: w9 :: w10 :: w11 :: w12 :: w13 :: w14 :: w15 :: rest =>
    [w0, w1, w2, w3, w4, w5, w6, w7, w8, w9, w10, w11, w12, w13, w14, w15] ::
      chunk16 rest
  | _ => []

def wordsToBytes : List Nat → List Nat
  | [] => []
  | w :: ws =>
    (w >>> 24) % 256 :: (w >>> 16) % 256 :: (w >>> 8) % 256 :: w % 256 ::
      wordsToBytes ws

/-- SHA-256 digest (32 bytes) of a byte string. -/
def sha256 (ms : List Nat) : List Nat :=
  wordsToBytes ((chunk16 (bytesToWords (padMsg ms))).foldl compressBlock sha256H0)

/-- HMAC-SHA256 (RFC 2104) of `msg` keyed by `key`; models the Rust
`Hmac<Sha256>` from the `hmac` crate. -/
def hmacSha256 (key msg : List Nat) : List Nat :=
  let k0 := if 64 < key.length then sha256 key else key
  let kpad := k0 ++ List.replicate (64 - k0.length) 0
  let ipad := kpad.map (fun b => b ^^^ 0x36)
  let opad := kpad.map (fun b => b ^^^ 0x5c)
  sha256 (opad ++ sha256 (ipad ++ msg))

/-- Lowercase hex digit byte for a nibble, as produced by `hex::encode`. -/
def hexDigit (n : Nat) : Nat := if n < 10 then 48 + n else 87 + n

/-- Lowercase hex encoding of a byte string (Rust `hex::encode`). -/
def hexEncode : List Nat → List Nat
  | [] => []
  | b :: bs => hexDigit (b / 16) :: hexDigit (b % 16) :: hexEncode bs

/-- Sanity check of the SHA-256 embedding against the FIPS 180-4 test vector
for `"abc"`. -/
theorem sha256_abc_vector :
    hexEncode (sha256 (strBytes "abc")) =
      strBytes "ba7816bf8f01cfea414140de5dae2223b00361a396177a9cb410ff61f20015ad" := by
  decide

/-! ## `i64` parsing and formatting

`timestamp_str.parse::<i64>()` accepts an optional `+`/`-` sign followed by
one or more ASCII digits and fails on overflow of the `i64` range;
`format!("{}", timestamp)` prints the canonical decimal form. -/

def digitsAcc : List Nat → Nat → Option Nat
  | [], acc => some acc
  | d :: ds, acc =>
    if 48 ≤ d ∧ d ≤ 57 then digitsAcc ds (acc * 10 + (d - 48)) else none

def parseDigits : List Nat → Option Nat
  | [] => none
  | d :: ds => digitsAcc (d :: ds) 0

/-- Rust `str::parse::<i64>`: optional sign, ASCII digits, `i64` range check. -/
def parseI64 (s : List Nat) : Option Int :=
  match s with
  | [] => none
  | c :: rest =>
    if c = 43 then
      (parseDigits rest).bind fun n =>
        if n ≤ 2 ^ 63 - 1 then some (n : Int) else none
    else if c = 45 then
      (parseDigits rest).bind fun n =>
        if n ≤ 2 ^ 63 then some (-(n : Int)) else none
    else
      (parseDigits (c :: rest)).bind fun n =>
        if n ≤ 2 ^ 63 - 1 then some (n : Int) else none

def natDigitsRev : Nat → Nat → List Nat
  | 0, _ => []
  | fuel + 1, n =>
    if n = 0 then [] else (48 + n % 10) :: natDigitsRev fuel (n / 10)

def natToDec (n : Nat) : List Nat :=
  if n = 0 then [48] else (natDigitsRev n n).reverse

/-- Rust `format!("{}", t)` for `t : i64`: canonical decimal byte string. -/
def intToDec : Int → List Nat
  | Int.ofNat n => natToDec n
  | Int.negSucc m => 45 :: natToDec (m + 1)

/-! ## `i64` wrapping subtraction

`current - timestamp` in Rust is an `i64` subtraction; under the release
profile (overflow checks off) an out-of-range result wraps modulo 2^64
into the two's-complement range. -/

def i64Wrap (x : Int) : Int := (x + 2 ^ 63) % 2 ^ 64 - 2 ^ 63

def wrapSubI64 (a b : Int) : Int := i64Wrap (a - b)

/-! ## Header map

`HashMap<String, String>` built by the handler: keys are the lower-cased
header names.  Modelled as an association list where insertion replaces an
existing binding, so keys are unique just as in the hash map. -/

def Headers : Type := List (List Nat × List Nat)

def hmGet : Headers → List Nat → Option (List Nat)
  | [], _ => none
  | (k, v) :: rest, key => if k = key then some v else hmGet rest key

def hmInsert : Headers → List Nat → List Nat → Headers
  | [], k, v => [(k, v)]
  | (k0, v0) :: rest, k, v =>
    if k0 = k then (k, v) :: rest else (k0, v0) :: hmInsert rest k v

/-- ASCII lower-casing of a header name, byte by byte.  HTTP header names
are ASCII tokens, on which Rust `str::to_lowercase` acts exactly like this
(the `http` crate rejects non-ASCII header names before the handler runs). -/
def asciiLower (s : List Nat) : List Nat :=
  s.map fun b => if 65 ≤ b ∧ b ≤ 90 then b + 32 else b

/-- `HeaderValue::to_str` succeeds iff every byte is visible ASCII or tab;
other header values are silently dropped from the map by the handler. -/
def headerValueOkStr (v : List Nat) : Bool :=
  v.all fun b => decide ((32 ≤ b ∧ b < 127) ∨ b = 9)

/-- The handler's header-extraction loop: lower-case each name, keep the
value when it is representable as text, insert into the map. -/
def buildHeaderMap (hs : List (List Nat × List Nat)) : Headers :=
  hs.foldl
    (fun m kv =>
      if headerValueOkStr kv.2 then hmInsert m (asciiLower kv.1) kv.2 else m)
    []

/-! ## The webhook verifier (`is_webhook_event_valid`) -/

def SERVER_PORT : Nat := 5080

def MAX_WEBHOOK_AGE : Int := 120 * 1000

def OPENVIDU_MEET_API_KEY : List Nat := strBytes "meet-api-key"

def xSignatureKey : List Nat := strBytes "x-signature"

def xTimestampKey : List Nat := strBytes "x-timestamp"

/-- `format!("{}.{}", timestamp, body_str)`: the decimal form of the parsed
timestamp, a literal `.` (byte 46), then the body bytes. -/
def signedPayload (timestamp : Int) (body : List Nat) : List Nat :=
  intToDec timestamp ++ 46 :: body

/-- The constant-time comparison loop: reject on length mismatch, otherwise
OR-accumulate the XOR of corresponding bytes and accept iff it is zero. -/
def ctEqBytes (sig expected : List Nat) : Bool :=
  if sig.length ≠ expected.length then false
  else ((sig.zip expected).foldl (fun r p => r ||| (p.1 ^^^ p.2)) 0) == 0

/-- `is_webhook_event_valid` with the HMAC key as an explicit parameter
(the Rust function reads the `OPENVIDU_MEET_API_KEY` constant).  `current`
stands for `Utc::now().timestamp_millis()`. -/
def is_webhook_event_valid_keyed (key body_str : List Nat) (headers : Headers)
    (current : Int) : Bool :=
  match hmGet headers xSignatureKey with
  | none => false
  | some signature =>
    match hmGet headers xTimestampKey with
    | none => false
    | some timestamp_str =>
      match parseI64 timestamp_str with
      | none => false
      | some timestamp =>
        let diff_time := wrapSubI64 current timestamp
        if MAX_WEBHOOK_AGE ≤ diff_time then false
        else
          let signed_payload := signedPayload timestamp body_str
          let expected_hex := hexEncode (hmacSha256 key signed_payload)
          ctEqBytes signature expected_hex

def is_webhook_event_valid (body_str : List Nat) (headers : Headers)
    (current : Int) : Bool :=
  is_webhook_event_valid_keyed OPENVIDU_MEET_API_KEY body_str headers current

/-! ## UTF-8 validation (`std::str::from_utf8`) -/

def contByte (b : Nat) : Bool := decide (128 ≤ b ∧ b ≤ 191)

/-- Well-formed UTF-8 per the Unicode standard (what `from_utf8` checks):
no overlong encodings, no surrogates, nothing above U+10FFFF. -/
def validUtf8 : List Nat → Bool
  | [] => true
  | b :: rest =>
    if b ≤ 0x7F then validUtf8 rest
    else if 0xC2 ≤ b ∧ b ≤ 0xDF then
      match rest with
      | c1 :: rest1 => contByte c1 && validUtf8 rest1
      | [] => false
    else if 0xE0 ≤ b ∧ b ≤ 0xEF then
      match rest with
      | c1 :: c2 :: rest2 =>
        (if b = 0xE0 then decide (160 ≤ c1 ∧ c1 ≤ 191)
         else if b = 0xED then decide (128 ≤ c1 ∧ c1 ≤ 159)
         else contByte c1) && contByte c2 && validUtf8 rest2
      | _ => false
    else if 0xF0 ≤ b ∧ b ≤ 0xF4 then
      match rest with
      | c1 :: c2 :: c3 :: rest3 =>
        (if b = 0xF0 then decide (144 ≤ c1 ∧ c1 ≤ 191)
         else if b = 0xF4 then decide (128 ≤ c1 ∧ c1 ≤ 143)
         else contByte c1) && contByte c2 && contByte c3 && validUtf8 rest3
      | _ => false
    else false

/-! ## The transport shim (`webhook_handler`) -/

/-- Outcome of `webhook_handler`: `response status body` models
`Ok(Response {status, body})`, `errStatus s` models `Err(StatusCode)`. -/
inductive HandlerResult where
  | response (status : Nat) (body : List Nat)
  | errStatus (status : Nat)
  deriving DecidableEq

def invalidSignatureMsg : List Nat := strBytes "Invalid webhook signature"

/-- The handler: decode the body as UTF-8 (400 on failure), build the
lower-cased header map, verify, and answer 401 or 200. -/
def webhook_handler (bodyBytes : List Nat)
    (headers : List (List Nat × List Nat)) (now : Int) : HandlerResult :=
  if validUtf8 bodyBytes = false then HandlerResult.errStatus 400
  else
    let header_map := buildHeaderMap headers
    if is_webhook_event_valid bodyBytes header_map now = false then
      HandlerResult.response 401 invalidSignatureMsg
    else
      HandlerResult.response 200 []

/-! ## Helper lemmas -/

theorem natOr_eq_zero (a b : Nat) : a ||| b = 0 ↔ a = 0 ∧ b = 0 := by
  constructor
  · intro h
    constructor <;> refine Nat.eq_of_testBit_eq fun k => ?_
    · have h2 := congrArg (fun n => Nat.testBit n k) h
      simp [Nat.testBit_lor] at h2
      simp [h2.1]
    · have h2 := congrArg (fun n => Nat.testBit n k) h
      simp [Nat.testBit_lor] at h2
      simp [h2.2]
  · rintro ⟨rfl, rfl⟩; rfl

theorem orFold_eq_zero (l : List (Nat × Nat)) (r : Nat) :
    l.foldl (fun r p => r ||| (p.1 ^^^ p.2)) r = 0 ↔
      r = 0 ∧ ∀ p ∈ l, p.1 = p.2 := by
  induction l generalizing r with
  | nil => simp
  | cons x xs ih =>
    simp only [List.foldl_cons, ih, natOr_eq_zero, Nat.xor_eq_zero,
      List.mem_cons]
    constructor
    · rintro ⟨⟨hr, hx⟩, hall⟩
      refine ⟨hr, fun p hp => ?_⟩
      rcases hp with rfl | hp
      · exact hx
      · exact hall p hp
    · rintro ⟨hr, hall⟩
      exact ⟨⟨hr, hall x (Or.inl rfl)⟩, fun p hp => hall p (Or.inr hp)⟩

theorem zip_forall_eq (a : List Nat) :
    ∀ b : List Nat, a.length = b.length →
      ((∀ p ∈ a.zip b, p.1 = p.2) ↔ a = b) := by
  induction a with
  | nil =>
    intro b h
    cases b with
    | nil => simp
    | cons y ys => simp at h
  | cons x xs ih =>
    intro b h
    cases b with
    | nil => simp at h
    | cons y ys =>
      have h' : xs.length = ys.length := by simpa using h
      simp only [List.zip_cons_cons, List.mem_cons, List.cons.injEq]
      rw [← ih ys h']
      constructor
      · intro hall
        exact ⟨hall (x, y) (Or.inl rfl), fun p hp => hall p (Or.inr hp)⟩
      · rintro ⟨hxy, hall⟩ p hp
        rcases hp with rfl | hp
        · exact hxy
        · exact hall p hp

/-- The comparison loop computes exact byte-string equality. -/
theorem ctEqBytes_eq_true_iff (a b : List Nat) :
    ctEqBytes a b = true ↔ a = b := by
  unfold ctEqBytes
  by_cases h : a.length = b.length
  · rw [if_neg (fun hn => hn h), beq_iff_eq]
    constructor
    · intro hf
      exact (zip_forall_eq a b h).mp ((orFold_eq_zero _ _).mp hf).2
    · intro hab
      exact (orFold_eq_zero _ _).mpr ⟨rfl, (zip_forall_eq a b h).mpr hab⟩
  · rw [if_pos h]
    exact iff_of_false (by simp) fun hab => h (by rw [hab])

/-- Unfolding of the verifier once both headers are present and the
timestamp parses. -/
theorem verify_eq_of_lookups (key body : List Nat) (h : Headers) (now : Int)
    (sig ts : List Nat) (t : Int)
    (hsig : hmGet h xSignatureKey = some sig)
    (hts : hmGet h xTimestampKey = some ts)
    (hparse : parseI64 ts = some t) :
    is_webhook_event_valid_keyed key body h now =
      if MAX_WEBHOOK_AGE ≤ wrapSubI64 now t then false
      else ctEqBytes sig (hexEncode (hmacSha256 key (signedPayload t body))) := by
  unfold is_webhook_event_valid_keyed
  rw [hsig, hts]
  simp only [hparse]

/-- The wrapped difference always lies in the `i64` range. -/
theorem i64Wrap_range (x : Int) :
    -(2 ^ 63) ≤ i64Wrap x ∧ i64Wrap x < 2 ^ 63 := by
  unfold i64Wrap
  have h64 : (0 : Int) < 2 ^ 64 := by norm_num
  have h1 := Int.emod_nonneg (x + 2 ^ 63) (by norm_num : (2 ^ 64 : Int) ≠ 0)
  have h2 := Int.emod_lt_of_pos (x + 2 ^ 63) h64
  constructor <;> [linarith; linarith [show (2 ^ 64 : Int) = 2 ^ 63 + 2 ^ 63 by norm_num]]

/-- Wrapping is the identity on values already in the `i64` range. -/
theorem i64Wrap_eq_self (x : Int) (h1 : -(2 ^ 63) ≤ x) (h2 : x < 2 ^ 63) :
    i64Wrap x = x := by
  unfold i64Wrap
  rw [Int.emod_eq_of_lt (by linarith) (by nlinarith [show (2 ^ 64 : Int) = 2 ^ 63 + 2 ^ 63 by norm_num])]
  ring

theorem digitsAcc_append (xs ys : List Nat) (acc m : Nat)
    (h : digitsAcc xs acc = some m) :
    digitsAcc (xs ++ ys) acc = digitsAcc ys m := by
  induction xs generalizing acc with
  | nil =>
    simp only [digitsAcc, Option.some.injEq] at h
    subst h
    simp
  | cons d ds ih =>
    simp only [digitsAcc, List.cons_append] at h ⊢
    by_cases hd : 48 ≤ d ∧ d ≤ 57
    · rw [if_pos hd] at h ⊢
      exact ih _ h
    · rw [if_neg hd] at h
      cases h

theorem digitsAcc_natDigitsRev (fuel : Nat) :
    ∀ n acc : Nat, n ≤ fuel →
      digitsAcc ((natDigitsRev fuel n).reverse) acc =
        some (acc * 10 ^ (natDigitsRev fuel n).length + n) := by
  induction fuel with
  | zero =>
    intro n acc h
    have hn : n = 0 := Nat.le_zero.mp h
    subst hn
    simp [natDigitsRev, digitsAcc]
  | succ fuel ih =>
    intro n acc h
    by_cases hn : n = 0
    · subst hn
      simp [natDigitsRev, digitsAcc]
    · rw [natDigitsRev, if_neg hn]
      have hrec : n / 10 ≤ fuel := by omega
      simp only [List.reverse_cons, List.length_cons]
      rw [digitsAcc_append _ _ _ _ (ih (n / 10) acc hrec)]
      have hd : 48 ≤ 48 + n % 10 ∧ 48 + n % 10 ≤ 57 := by omega
      simp only [digitsAcc, if_pos hd, Nat.add_sub_cancel_left]
      congr 1
      have hsplit :
          (acc * 10 ^ (natDigitsRev fuel (n / 10)).length + n / 10) * 10 + n % 10 =
            acc * (10 ^ (natDigitsRev fuel (n / 10)).length * 10) +
              (n / 10 * 10 + n % 10) := by ring
      rw [hsplit, show n / 10 * 10 + n % 10 = n by omega, pow_succ]

theorem natDigitsRev_mem (fuel : Nat) :
    ∀ n : Nat, ∀ d ∈ natDigitsRev fuel n, 48 ≤ d ∧ d ≤ 57 := by
  induction fuel with
  | zero => intro n d hd; simp [natDigitsRev] at hd
  | succ fuel ih =>
    intro n d hd
    rw [natDigitsRev] at hd
    by_cases hn : n = 0
    · rw [if_pos hn] at hd; simp at hd
    · rw [if_neg hn] at hd
      rcases List.mem_cons.mp hd with rfl | hd
      · omega
      · exact ih _ d hd

theorem natToDec_mem (n : Nat) : ∀ d ∈ natToDec n, 48 ≤ d ∧ d ≤ 57 := by
  intro d hd
  unfold natToDec at hd
  by_cases hn : n = 0
  · rw [if_pos hn] at hd
    simp at hd
    omega
  · rw [if_neg hn] at hd
    exact natDigitsRev_mem n n d (List.mem_reverse.mp hd)

theorem natToDec_ne_nil (n : Nat) : natToDec n ≠ [] := by
  unfold natToDec
  by_cases hn : n = 0
  · rw [if_pos hn]; simp
  · rw [if_neg hn]
    obtain ⟨m, rfl⟩ := Nat.exists_eq_succ_of_ne_zero hn
    rw [natDigitsRev, if_neg hn]
    simp

theorem parseDigits_natToDec (n : Nat) : parseDigits (natToDec n) = some n := by
  by_cases hn : n = 0
  · subst hn; decide
  · have hlist := digitsAcc_natDigitsRev n n 0 (le_refl n)
    have hne : natToDec n ≠ [] := natToDec_ne_nil n
    unfold natToDec at hne ⊢
    rw [if_neg hn] at hne ⊢
    cases hrev : (natDigitsRev n n).reverse with
    | nil => exact absurd hrev (by simpa using hne)
    | cons d ds =>
      rw [hrev] at hlist
      simp only [parseDigits]
      rw [hlist]
      simp

theorem parseI64_intToDec (t : Int) (h1 : -(2 ^ 63) ≤ t) (h2 : t < 2 ^ 63) :
    parseI64 (intToDec t) = some t := by
  cases t with
  | ofNat n =>
    show parseI64 (natToDec n) = some (Int.ofNat n)
    have hbound : n ≤ 2 ^ 63 - 1 := by
      have : (n : Int) < 2 ^ 63 := h2
      omega
    cases hl : natToDec n with
    | nil => exact absurd hl (natToDec_ne_nil n)
    | cons c rest =>
      have hc : 48 ≤ c ∧ c ≤ 57 := natToDec_mem n c (hl ▸ List.mem_cons_self c rest)
      have hp : parseDigits (c :: rest) = some n := hl ▸ parseDigits_natToDec n
      rw [parseI64]
      rw [if_neg (by omega : ¬c = 43), if_neg (by omega : ¬c = 45), hp]
      simp only [Option.some_bind]
      rw [if_pos hbound]
      rfl
  | negSucc m =>
    show parseI64 (45 :: natToDec (m + 1)) = some (Int.negSucc m)
    have hbound : m + 1 ≤ 2 ^ 63 := by
      have h1' : -(2 ^ 63 : Int) ≤ Int.negSucc m := h1
      rw [Int.negSucc_eq] at h1'
      omega
    rw [parseI64]
    norm_num
    rw [parseDigits_natToDec]
    simp only [Option.some_bind]
    rw [if_pos (show m + 1 ≤ 9223372036854775808 by omega)]
    congr 1

theorem wordsToBytes_lt (ws : List Nat) : ∀ b ∈ wordsToBytes ws, b < 256 := by
  induction ws with
  | nil => simp [wordsToBytes]
  | cons w ws ih =>
    intro b hb
    simp only [wordsToBytes, List.mem_cons] at hb
    rcases hb with rfl | rfl | rfl | rfl | hb
    · exact Nat.mod_lt _ (by norm_num)
    · exact Nat.mod_lt _ (by norm_num)
    · exact Nat.mod_lt _ (by norm_num)
    · exact Nat.mod_lt _ (by norm_num)
    · exact ih b hb

theorem sha256_bytes_lt (ms : List Nat) : ∀ b ∈ sha256 ms, b < 256 := by
  intro b hb
  unfold sha256 at hb
  exact wordsToBytes_lt _ b hb

theorem hexDigit_range (n : Nat) (h : n < 16) :
    (48 ≤ hexDigit n ∧ hexDigit n ≤ 57) ∨ (97 ≤ hexDigit n ∧ hexDigit n ≤ 102) := by
  unfold hexDigit
  by_cases h10 : n < 10
  · rw [if_pos h10]; left; omega
  · rw [if_neg h10]; right; omega

/-- Every byte that `hex::encode` emits is a digit or a lowercase `a`-`f`. -/
theorem hexEncode_lower (bs : List Nat) (hbs : ∀ b ∈ bs, b < 256) :
    ∀ c ∈ hexEncode bs, (48 ≤ c ∧ c ≤ 57) ∨ (97 ≤ c ∧ c ≤ 102) := by
  induction bs with
  | nil => simp [hexEncode]
  | cons b bs ih =>
    intro c hc
    have hb : b < 256 := hbs b (List.mem_cons_self b bs)
    simp only [hexEncode, List.mem_cons] at hc
    rcases hc with rfl | rfl | hc
    · exact hexDigit_range _ (by omega)
    · exact hexDigit_range _ (by omega)
    · exact ih (fun x hx => hbs x (List.mem_cons_of_mem b hx)) c hc

/-- The header map built by the handler depends only on the lower-cased
header names (and the values). -/
theorem buildFold_lower_eq (hs1 : List (List Nat × List Nat)) :
    ∀ (hs2 : List (List Nat × List Nat)) (m : Headers),
      hs1.map (fun kv => (asciiLower kv.1, kv.2)) =
        hs2.map (fun kv => (asciiLower kv.1, kv.2)) →
      hs1.foldl
          (fun m kv =>
            if headerValueOkStr kv.2 then hmInsert m (asciiLower kv.1) kv.2
            else m) m =
        hs2.foldl
          (fun m kv =>
            if headerValueOkStr kv.2 then hmInsert m (asciiLower kv.1) kv.2
            else m) m := by
  induction hs1 with
  | nil =>
    intro hs2 m h
    cases hs2 with
    | nil => rfl
    | cons kv2 rest2 => simp at h
  | cons kv1 rest1 ih =>
    intro hs2 m h
    cases hs2 with
    | nil => simp at h
    | cons kv2 rest2 =>
      simp only [List.map_cons, List.cons.injEq, Prod.mk.injEq] at h
      obtain ⟨⟨hk, hv⟩, hrest⟩ := h
      simp only [List.foldl_cons]
      rw [hk, hv]
      exact ih rest2 _ hrest

theorem buildHeaderMap_lower_eq (hs1 hs2 : List (List Nat × List Nat))
    (h : hs1.map (fun kv => (asciiLower kv.1, kv.2)) =
      hs2.map (fun kv => (asciiLower kv.1, kv.2))) :
    buildHeaderMap hs1 = buildHeaderMap hs2 :=
  buildFold_lower_eq hs1 hs2 [] h

/-- Case analysis on the verifier: either some early check already yields
`false`, or both headers are present, the timestamp parses, the event is
fresh, and the verdict is the comparison of the supplied signature with the
expected hex signature. -/
theorem verify_cases (key body : List Nat) (h : Headers) (now : Int) :
    is_webhook_event_valid_keyed key body h now = false ∨
    ∃ sig ts t,
      hmGet h xSignatureKey = some sig ∧
      hmGet h xTimestampKey = some ts ∧
      parseI64 ts = some t ∧
      wrapSubI64 now t < MAX_WEBHOOK_AGE ∧
      is_webhook_event_valid_keyed key body h now =
        ctEqBytes sig (hexEncode (hmacSha256 key (signedPayload t body))) := by
  cases hsig : hmGet h xSignatureKey with
  | none => left; unfold is_webhook_event_valid_keyed; rw [hsig]
  | some sig =>
    cases hts : hmGet h xTimestampKey with
    | none => left; unfold is_webhook_event_valid_keyed; rw [hsig, hts]
    | some ts =>
      cases hparse : parseI64 ts with
      | none =>
        left
        unfold is_webhook_event_valid_keyed
        rw [hsig, hts]
        simp only [hparse]
      | some t =>
        have hv := verify_eq_of_lookups key body h now sig ts t hsig hts hparse
        by_cases hf : MAX_WEBHOOK_AGE ≤ wrapSubI64 now t
        · left; rw [hv, if_pos hf]
        · right
          exact ⟨sig, ts, t, rfl, rfl, hparse, not_le.mp hf, by rw [hv, if_neg hf]⟩

/-- If the verifier accepts, every check passed and the supplied signature
is exactly the expected hex signature. -/
theorem verify_true_inversion (key body : List Nat) (h : Headers) (now : Int)
    (hacc : is_webhook_event_valid_keyed key body h now = true) :
    ∃ sig ts t,
      hmGet h xSignatureKey = some sig ∧
      hmGet h xTimestampKey = some ts ∧
      parseI64 ts = some t ∧
      wrapSubI64 now t < MAX_WEBHOOK_AGE ∧
      sig = hexEncode (hmacSha256 key (signedPayload t body)) := by
  rcases verify_cases key body h now with hfalse | ⟨sig, ts, t, h1, h2, h3, h4, h5⟩
  · rw [hacc] at hfalse; cases hfalse
  · refine ⟨sig, ts, t, h1, h2, h3, h4, ?_⟩
    rw [hacc] at h5
    exact (ctEqBytes_eq_true_iff _ _).mp h5.symm

/-! ## Claims -/

/-- C3: The verifier is total and exception-free: for every body string,
header mapping and current time it returns one of the two booleans (every
failure mode collapses to `false`), and the age computation — the wrapping
`i64` subtraction `current - timestamp`, including for the most negative
64-bit timestamp — always stays inside the `i64` range, so no intermediate
value escapes and no panic can occur under the release (wrapping) overflow
semantics the shipped binary runs with. -/
theorem c3_verifier_total (key body : List Nat) (h : Headers) (now : Int) :
    (is_webhook_event_valid_keyed key body h now = false ∨
      is_webhook_event_valid_keyed key body h now = true) ∧
    ∀ ts : Int, -(2 ^ 63) ≤ wrapSubI64 now ts ∧ wrapSubI64 now ts < 2 ^ 63 :=
  ⟨Bool.dichotomy _, fun _ => i64Wrap_range _⟩

/-- C5: The signature comparison computes exact string equality: the
length-check-then-XOR/OR-accumulation loop returns true iff the two byte
strings are byte-for-byte equal, and consequently, once both headers are
present, the timestamp parses and the event is fresh, the verifier returns
true exactly when the supplied `x-signature` equals the expected lowercase
hex signature. -/
theorem c5_comparison_is_equality :
    (∀ a b : List Nat, ctEqBytes a b = true ↔ a = b) ∧
    ∀ (key body : List Nat) (h : Headers) (now : Int) (sig ts : List Nat)
      (t : Int),
      hmGet h xSignatureKey = some sig →
      hmGet h xTimestampKey = some ts →
      parseI64 ts = some t →
      wrapSubI64 now t < MAX_WEBHOOK_AGE →
      (is_webhook_event_valid_keyed key body h now = true ↔
        sig = hexEncode (hmacSha256 key (signedPayload t body))) := by
  refine ⟨ctEqBytes_eq_true_iff, ?_⟩
  intro key body h now sig ts t hsig hts hparse hfresh
  rw [verify_eq_of_lookups key body h now sig ts t hsig hts hparse,
    if_neg (not_le.mpr hfresh)]
  exact ctEqBytes_eq_true_iff _ _

theorem c5_witness :
    is_webhook_event_valid_keyed OPENVIDU_MEET_API_KEY []
        [(xSignatureKey,
          strBytes "14861081f4de15eb5903096fd13c6e8dd043af13e62d66020ec8e619d2530e0d"),
         (xTimestampKey, strBytes "0")] 0 = true ↔
      strBytes "14861081f4de15eb5903096fd13c6e8dd043af13e62d66020ec8e619d2530e0d" =
        hexEncode (hmacSha256 OPENVIDU_MEET_API_KEY (signedPayload 0 [])) :=
  c5_comparison_is_equality.2 OPENVIDU_MEET_API_KEY []
    [(xSignatureKey,
      strBytes "14861081f4de15eb5903096fd13c6e8dd043af13e62d66020ec8e619d2530e0d"),
     (xTimestampKey, strBytes "0")] 0
    (strBytes "14861081f4de15eb5903096fd13c6e8dd043af13e62d66020ec8e619d2530e0d")
    (strBytes "0") 0 (by decide) (by decide) (by decide) (by decide)

/-- C7: If the header map has no `x-signature` entry, or no `x-timestamp`
entry, or the `x-timestamp` value does not parse as a base-10 64-bit
integer, the verifier returns false, and every rejection surfaces uniformly
as a 401 response with the fixed message. -/
theorem c7_missing_headers_reject (body : List Nat) (h : Headers) (now : Int) :
    (hmGet h xSignatureKey = none → is_webhook_event_valid body h now = false) ∧
    (hmGet h xTimestampKey = none → is_webhook_event_valid body h now = false) ∧
    (∀ ts, hmGet h xTimestampKey = some ts → parseI64 ts = none →
      is_webhook_event_valid body h now = false) ∧
    (is_webhook_event_valid body h now = false →
      ∀ hs, validUtf8 body = true → buildHeaderMap hs = h →
        webhook_handler body hs now =
          HandlerResult.response 401 invalidSignatureMsg) := by
  refine ⟨?_, ?_, ?_, ?_⟩
  · intro hnone
    unfold is_webhook_event_valid is_webhook_event_valid_keyed
    rw [hnone]
  · intro hnone
    unfold is_webhook_event_valid is_webhook_event_valid_keyed
    rw [hnone]
    cases hmGet h xSignatureKey <;> rfl
  · intro ts hts hp
    unfold is_webhook_event_valid is_webhook_event_valid_keyed
    rw [hts]
    cases hmGet h xSignatureKey with
    | none => rfl
    | some sig => simp only [hp]
  · intro hfalse hs hutf hmap
    unfold webhook_handler
    simp [hutf, hmap, hfalse]

theorem c7_witness :
    hmGet ([] : Headers) xSignatureKey = none ∧
    is_webhook_event_valid [] [] 0 = false :=
  ⟨rfl, (c7_missing_headers_reject [] [] 0).1 rfl⟩

/-- C8: The handler's response mapping is exactly: 200 with empty body when
the verifier accepts, 401 with body `"Invalid webhook signature"` when it
rejects, 400 when the request body is not valid UTF-8, and nothing else. -/
theorem c8_handler_status_mapping (body : List Nat)
    (hs : List (List Nat × List Nat)) (now : Int) :
    (validUtf8 body = false →
      webhook_handler body hs now = HandlerResult.errStatus 400) ∧
    (validUtf8 body = true →
      is_webhook_event_valid body (buildHeaderMap hs) now = true →
      webhook_handler body hs now = HandlerResult.response 200 []) ∧
    (validUtf8 body = true →
      is_webhook_event_valid body (buildHeaderMap hs) now = false →
      webhook_handler body hs now =
        HandlerResult.response 401 invalidSignatureMsg) ∧
    (webhook_handler body hs now = HandlerResult.errStatus 400 ∨
      webhook_handler body hs now =
        HandlerResult.response 401 invalidSignatureMsg ∨
      webhook_handler body hs now = HandlerResult.response 200 []) := by
  refine ⟨?_, ?_, ?_, ?_⟩
  · intro hbad
    unfold webhook_handler
    rw [hbad]
    simp
  · intro hutf hv
    unfold webhook_handler
    simp [hutf, hv]
  · intro hutf hv
    unfold webhook_handler
    simp [hutf, hv]
  · unfold webhook_handler
    cases hutf : validUtf8 body with
    | false => left; simp
    | true =>
      cases hv : is_webhook_event_valid body (buildHeaderMap hs) now with
      | false => right; left; simp [hv]
      | true => right; right; simp [hv]

theorem c8_witness :
    validUtf8 [128] = false ∧
    webhook_handler [128] [] 0 = HandlerResult.errStatus 400 :=
  ⟨by decide, (c8_handler_status_mapping [128] [] 0).1 (by decide)⟩

/-- C9: Header name lookup is case-insensitive: two raw header lists whose
names agree up to ASCII case (and whose values agree) produce the same
handler outcome, because the transport shim lower-cases every header name
when building the mapping; in particular `x-signature`, `X-Signature` and
`X-SIGNATURE` resolve identically. -/
theorem c9_case_insensitive_headers (body : List Nat)
    (hs1 hs2 : List (List Nat × List Nat)) (now : Int)
    (h : hs1.map (fun kv => (asciiLower kv.1, kv.2)) =
      hs2.map (fun kv => (asciiLower kv.1, kv.2))) :
    webhook_handler body hs1 now = webhook_handler body hs2 now := by
  unfold webhook_handler
  rw [buildHeaderMap_lower_eq hs1 hs2 h]

theorem c9_witness :
    webhook_handler []
        [(strBytes "X-SIGNATURE", strBytes "ab"),
         (strBytes "X-Timestamp", strBytes "0")] 0 =
      webhook_handler []
        [(strBytes "x-signature", strBytes "ab"),
         (strBytes "x-timestamp", strBytes "0")] 0 :=
  c9_case_insensitive_headers []
    [(strBytes "X-SIGNATURE", strBytes "ab"),
     (strBytes "X-Timestamp", strBytes "0")]
    [(strBytes "x-signature", strBytes "ab"),
     (strBytes "x-timestamp", strBytes "0")] 0 (by decide)

theorem hmacSha256_bytes_lt (key msg : List Nat) :
    ∀ b ∈ hmacSha256 key msg, b < 256 := by
  intro b hb
  unfold hmacSha256 at hb
  exact sha256_bytes_lt _ b hb

/-- C10: Only lowercase hex signatures can be accepted: whenever the
supplied `x-signature` value contains an uppercase ASCII letter at any
position — in particular the correct signature with a hex letter
upper-cased — the verifier returns false, because the expected signature is
lowercase hex and is compared byte-for-byte without case folding. -/
theorem c10_uppercase_signature_rejected (key body sig : List Nat)
    (h : Headers) (now : Int) (i : Nat)
    (hsig : hmGet h xSignatureKey = some sig)
    (hi : i < sig.length)
    (hup1 : 65 ≤ sig.getD i 0) (hup2 : sig.getD i 0 ≤ 90) :
    is_webhook_event_valid_keyed key body h now = false := by
  rcases verify_cases key body h now with
    hfalse | ⟨sig', ts, t, hsig', hts, hparse, hfresh, heq⟩
  · exact hfalse
  · rw [hsig] at hsig'
    injection hsig' with hss
    subst hss
    rw [heq, Bool.eq_false_iff]
    intro htrue
    have hEq : sig = hexEncode (hmacSha256 key (signedPayload t body)) :=
      (ctEqBytes_eq_true_iff _ _).mp htrue
    have hmem : sig.getD i 0 ∈ sig := by
      rw [List.getD_eq_getElem sig 0 hi]
      exact List.getElem_mem hi
    rw [hEq] at hup1 hup2 hmem
    have := hexEncode_lower _ (hmacSha256_bytes_lt key (signedPayload t body)) _ hmem
    omega

theorem c10_witness :
    is_webhook_event_valid_keyed OPENVIDU_MEET_API_KEY []
      [(xSignatureKey,
        strBytes "14861081F4de15eb5903096fd13c6e8dd043af13e62d66020ec8e619d2530e0d"),
       (xTimestampKey, strBytes "0")] 0 = false :=
  c10_uppercase_signature_rejected OPENVIDU_MEET_API_KEY []
    (strBytes "14861081F4de15eb5903096fd13c6e8dd043af13e62d66020ec8e619d2530e0d")
    [(xSignatureKey,
      strBytes "14861081F4de15eb5903096fd13c6e8dd043af13e62d66020ec8e619d2530e0d"),
     (xTimestampKey, strBytes "0")] 0 8
    (by decide) (by decide) (by decide) (by decide)

/-- C6: For every request the verifier accepts, changing any single byte of
the `x-signature` header value (keeping its length) yields a request the
verifier rejects, and the handler responds 401. -/
theorem c6_single_flip_rejected (body sig : List Nat) (h h' : Headers)
    (now : Int) (i c : Nat)
    (hacc : is_webhook_event_valid body h now = true)
    (hsig : hmGet h xSignatureKey = some sig)
    (hi : i < sig.length) (hc : c ≠ sig.getD i 0)
    (hsig' : hmGet h' xSignatureKey = some (sig.set i c))
    (hts' : hmGet h' xTimestampKey = hmGet h xTimestampKey) :
    is_webhook_event_valid body h' now = false ∧
    (∀ hs, validUtf8 body = true → buildHeaderMap hs = h' →
      webhook_handler body hs now =
        HandlerResult.response 401 invalidSignatureMsg) := by
  obtain ⟨sig0, ts, t, hsig0, hts, hparse, hfresh, hexp⟩ :=
    verify_true_inversion OPENVIDU_MEET_API_KEY body h now hacc
  rw [hsig] at hsig0
  injection hsig0 with hss
  subst hss
  have hreject :
      is_webhook_event_valid_keyed OPENVIDU_MEET_API_KEY body h' now = false := by
    rw [verify_eq_of_lookups OPENVIDU_MEET_API_KEY body h' now (sig.set i c) ts t
        hsig' (hts'.trans hts) hparse,
      if_neg (not_le.mpr hfresh), Bool.eq_false_iff]
    intro htrue
    have heq2 := (ctEqBytes_eq_true_iff _ _).mp htrue
    rw [← hexp] at heq2
    have hgot : (sig.set i c).getD i 0 = sig.getD i 0 := by rw [heq2]
    rw [List.getD_eq_getElem _ 0 (by simpa using hi),
      List.getElem_set_self] at hgot
    exact hc hgot
  have hrej2 : is_webhook_event_valid body h' now = false := hreject
  refine ⟨hrej2, ?_⟩
  intro hs hutf hmap
  unfold webhook_handler
  simp [hutf, hmap, hrej2]

theorem c6_witness :
    is_webhook_event_valid []
      [(xSignatureKey,
        (strBytes "14861081f4de15eb5903096fd13c6e8dd043af13e62d66020ec8e619d2530e0d").set 0 48),
       (xTimestampKey, strBytes "0")] 0 = false :=
  (c6_single_flip_rejected []
    (strBytes "14861081f4de15eb5903096fd13c6e8dd043af13e62d66020ec8e619d2530e0d")
    [(xSignatureKey,
      strBytes "14861081f4de15eb5903096fd13c6e8dd043af13e62d66020ec8e619d2530e0d"),
     (xTimestampKey, strBytes "0")]
    [(xSignatureKey,
      (strBytes "14861081f4de15eb5903096fd13c6e8dd043af13e62d66020ec8e619d2530e0d").set 0 48),
     (xTimestampKey, strBytes "0")] 0 0 48
    (by decide) (by decide) (by decide) (by decide) (by decide) (by decide)).1

/-- C1 counterexample: with secret `"meet-api-key"`, body `""`,
t = 9223372036854775807 (a valid i64 timestamp) and
now = -9223372036854655809 (a valid i64 clock reading) the claim's
hypothesis now - t < 120000 holds and the `x-signature` header is exactly
the lowercase hex HMAC-SHA256 of `"<t>.<body>"`, yet the verifier rejects:
the i64 subtraction now - t underflows and wraps to exactly 120000, which
fails the freshness check. -/
theorem c1_counterexample :
    ((-9223372036854655809 : Int) - 9223372036854775807 < 120000) ∧
    wrapSubI64 (-9223372036854655809) 9223372036854775807 = 120000 ∧
    is_webhook_event_valid []
      [(xSignatureKey,
        hexEncode (hmacSha256 OPENVIDU_MEET_API_KEY
          (signedPayload 9223372036854775807 []))),
       (xTimestampKey, strBytes "9223372036854775807")]
      (-9223372036854655809) = false :=
  ⟨by decide, by decide, by decide⟩

/-- C1 (amended): for every secret, body and i64 timestamp t with
now - t < 120000 and — additionally, as the counterexample forces —
now - t ≥ -2^63 (the i64 age subtraction does not wrap; automatic whenever
now ≥ 0), a request whose `x-timestamp` header is the decimal string of t
and whose `x-signature` header is the lowercase hex HMAC-SHA256 of
`"<t>.<body>"` keyed by the secret is accepted: the verifier returns true
and the handler responds 200 with an empty body. -/
theorem c1_valid_request_accepted (key body : List Nat) (now t : Int)
    (h : Headers)
    (ht1 : -(2 ^ 63) ≤ t) (ht2 : t < 2 ^ 63)
    (hfresh : now - t < 120000) (hnowrap : -(2 ^ 63) ≤ now - t)
    (hsig : hmGet h xSignatureKey =
      some (hexEncode (hmacSha256 key (signedPayload t body))))
    (hts : hmGet h xTimestampKey = some (intToDec t)) :
    is_webhook_event_valid_keyed key body h now = true ∧
    (∀ hs, key = OPENVIDU_MEET_API_KEY → validUtf8 body = true →
      buildHeaderMap hs = h →
      webhook_handler body hs now = HandlerResult.response 200 []) := by
  have hw : wrapSubI64 now t = now - t :=
    i64Wrap_eq_self _ hnowrap (by omega)
  have hv : is_webhook_event_valid_keyed key body h now = true := by
    rw [verify_eq_of_lookups key body h now _ _ t hsig hts
        (parseI64_intToDec t ht1 ht2),
      hw, if_neg (show ¬MAX_WEBHOOK_AGE ≤ now - t by unfold MAX_WEBHOOK_AGE; omega)]
    exact (ctEqBytes_eq_true_iff _ _).mpr rfl
  refine ⟨hv, ?_⟩
  intro hs hkey hutf hmap
  subst hkey
  have hv2 : is_webhook_event_valid body h now = true := hv
  unfold webhook_handler
  simp [hutf, hmap, hv2]

theorem c1_witness :
    is_webhook_event_valid_keyed OPENVIDU_MEET_API_KEY []
      [(xSignatureKey,
        strBytes "14861081f4de15eb5903096fd13c6e8dd043af13e62d66020ec8e619d2530e0d"),
       (xTimestampKey, strBytes "0")] 119999 = true :=
  (c1_valid_request_accepted OPENVIDU_MEET_API_KEY [] 119999 0
    [(xSignatureKey,
      strBytes "14861081f4de15eb5903096fd13c6e8dd043af13e62d66020ec8e619d2530e0d"),
     (xTimestampKey, strBytes "0")]
    (by decide) (by decide) (by decide) (by decide) (by decide) (by decide)).1

/-- C2 counterexample: with `x-timestamp = "+0"` the verifier reaches the
signing step (the value parses to 0 and is fresh at now = 0), yet the
payload that gets HMACed is `"0."` — the decimal re-serialization of the
parsed timestamp — and not `"+0."`, the exact header string followed by
`.` and the body: the signature over `"0."` is accepted while the
signature over `"+0."` is rejected. -/
theorem c2_counterexample :
    parseI64 (strBytes "+0") = some 0 ∧
    signedPayload 0 [] ≠ strBytes "+0" ++ 46 :: [] ∧
    strBytes "14861081f4de15eb5903096fd13c6e8dd043af13e62d66020ec8e619d2530e0d" =
      hexEncode (hmacSha256 OPENVIDU_MEET_API_KEY (signedPayload 0 [])) ∧
    strBytes "b24fcab525451a81e149b6dcc020139e7c7f215017799abe910a277d54babd8f" =
      hexEncode (hmacSha256 OPENVIDU_MEET_API_KEY (strBytes "+0" ++ 46 :: [])) ∧
    is_webhook_event_valid []
      [(xSignatureKey,
        strBytes "14861081f4de15eb5903096fd13c6e8dd043af13e62d66020ec8e619d2530e0d"),
       (xTimestampKey, strBytes "+0")] 0 = true ∧
    is_webhook_event_valid []
      [(xSignatureKey,
        strBytes "b24fcab525451a81e149b6dcc020139e7c7f215017799abe910a277d54babd8f"),
       (xTimestampKey, strBytes "+0")] 0 = false :=
  ⟨by decide, by decide, by decide, by decide, by decide, by decide⟩

/-- C2 (amended): the payload that gets HMACed is the decimal
re-serialization of the PARSED timestamp, a literal `.`, then the exact
body text; whenever the received `x-timestamp` header string is already
the canonical decimal form of the parsed value (as it is for every
canonically formatted sender timestamp), this coincides with the exact
header string followed by `.` and the body. -/
theorem c2_signed_payload (key body : List Nat) (h : Headers) (now : Int)
    (sig ts : List Nat) (t : Int)
    (hsig : hmGet h xSignatureKey = some sig)
    (hts : hmGet h xTimestampKey = some ts)
    (hparse : parseI64 ts = some t)
    (hfresh : wrapSubI64 now t < MAX_WEBHOOK_AGE) :
    (is_webhook_event_valid_keyed key body h now =
      ctEqBytes sig (hexEncode (hmacSha256 key (intToDec t ++ 46 :: body)))) ∧
    (ts = intToDec t → intToDec t ++ 46 :: body = ts ++ 46 :: body) := by
  refine ⟨?_, fun hcanon => by rw [hcanon]⟩
  rw [verify_eq_of_lookups key body h now sig ts t hsig hts hparse,
    if_neg (not_le.mpr hfresh)]
  rfl

theorem c2_witness :
    is_webhook_event_valid_keyed OPENVIDU_MEET_API_KEY []
        [(xSignatureKey, strBytes "ab"), (xTimestampKey, strBytes "7")] 0 =
      ctEqBytes (strBytes "ab")
        (hexEncode (hmacSha256 OPENVIDU_MEET_API_KEY (intToDec 7 ++ 46 :: []))) :=
  (c2_signed_payload OPENVIDU_MEET_API_KEY []
    [(xSignatureKey, strBytes "ab"), (xTimestampKey, strBytes "7")] 0
    (strBytes "ab") (strBytes "7") 7
    (by decide) (by decide) (by decide) (by decide)).1

/-- C4 counterexample: at now = 1700000000000 with
`x-timestamp = "-9223372036854775808"` (i64::MIN) the true age
now - t ≥ 120000, and the request carries exactly the correct lowercase hex
HMAC-SHA256 signature for that timestamp and empty body; yet the i64
subtraction wraps to a negative difference, the freshness check passes and
the verifier ACCEPTS — so the check does not reject exactly when
now - timestamp ≥ 120000. -/
theorem c4_counterexample :
    (120000 : Int) ≤ 1700000000000 - (-9223372036854775808) ∧
    parseI64 (strBytes "-9223372036854775808") =
      some (-9223372036854775808) ∧
    strBytes "56e8af3a9cd95a2b2aacad18f20c4405554a98478ac06f905cd28baa5e55644b" =
      hexEncode (hmacSha256 OPENVIDU_MEET_API_KEY
        (signedPayload (-9223372036854775808) [])) ∧
    is_webhook_event_valid []
      [(xSignatureKey,
        strBytes "56e8af3a9cd95a2b2aacad18f20c4405554a98478ac06f905cd28baa5e55644b"),
       (xTimestampKey, strBytes "-9223372036854775808")]
      1700000000000 = true :=
  ⟨by decide, by decide, by decide, by decide⟩

/-- C4 (amended): whenever now - t lies in the i64 range (no wrap — the
condition the counterexample forces), the freshness check rejects exactly
when now - t ≥ 120000: the verifier's verdict equals
`now - t < 120000 && (signature comparison)`.  In particular an
otherwise-valid request aged exactly 120000 ms is rejected, one aged
119999 ms is accepted, and a future timestamp (now - t negative but within
range) passes the freshness check and is not rejected on its own. -/
theorem c4_freshness_boundary (key body sig ts : List Nat) (h : Headers)
    (now t : Int)
    (hsig : hmGet h xSignatureKey = some sig)
    (hts : hmGet h xTimestampKey = some ts)
    (hparse : parseI64 ts = some t)
    (hlo : -(2 ^ 63) ≤ now - t) (hhi : now - t < 2 ^ 63) :
    is_webhook_event_valid_keyed key body h now =
      (decide (now - t < 120000) &&
        ctEqBytes sig (hexEncode (hmacSha256 key (signedPayload t body)))) := by
  rw [verify_eq_of_lookups key body h now sig ts t hsig hts hparse,
    show wrapSubI64 now t = now - t from i64Wrap_eq_self _ hlo hhi]
  by_cases hf : (120000 : Int) ≤ now - t
  · rw [if_pos (show MAX_WEBHOOK_AGE ≤ now - t from hf),
      decide_eq_false (not_lt.mpr hf)]
    simp
  · rw [if_neg (show ¬MAX_WEBHOOK_AGE ≤ now - t from hf),
      decide_eq_true (not_le.mp hf)]
    simp

theorem c4_witness :
    is_webhook_event_valid_keyed OPENVIDU_MEET_API_KEY []
        [(xSignatureKey, strBytes "ab"), (xTimestampKey, strBytes "0")] 120000 =
      (decide ((120000 : Int) - 0 < 120000) &&
        ctEqBytes (strBytes "ab")
          (hexEncode (hmacSha256 OPENVIDU_MEET_API_KEY (signedPayload 0 [])))) :=
  c4_freshness_boundary OPENVIDU_MEET_API_KEY [] (strBytes "ab") (strBytes "0")
    [(xSignatureKey, strBytes "ab"), (xTimestampKey, strBytes "0")] 120000 0
    (by decide) (by decide) (by decide) (by decide) (by decide)
